import Mathlib

/-!
Shallow embedding of the Knowledge Retrieval & Grounding Engine of the
`linkedin-architect` repository (src/services/ragService.ts,
src/services/geminiProvider.ts, src/services/openaiProvider.ts,
src/services/promptUtils.ts, src/components/DocumentManager.tsx).

Modelling conventions:
* JavaScript numbers are modelled by `JsNum`: an exact rational together with
  the IEEE-754 special values NaN and the two infinities.  Exact rationals
  stand in for doubles; the properties proved here are structural
  (NaN-propagation, ties, ordering) and do not depend on rounding.
  `Math.sqrt` is an abstract parameter `sqrt : ℚ → ℚ`; theorems that need a
  fact about it (such as `sqrt 0 = 0`, which holds for IEEE sqrt) take that
  fact as a hypothesis.
* Strings are Lean `String`s; JavaScript `substring` (with its clamping and
  swapping of indices) is modelled on the underlying character list.
* The `while` loop of `chunkText` is modelled with explicit fuel:
  `none` means the loop has not finished within the given fuel bound, so a
  result of `none` for every fuel bound is non-termination of the source loop.
* `IndexedDB` object-store contents are modelled as a list of records;
  the `vendor` and `documentId` secondary indexes become list filters, and
  the `keyPath: 'id'` key uniqueness becomes a `Nodup` hypothesis on ids.
* `Array.prototype.sort` with comparator `(a, b) => b.score - a.score` is
  modelled by a stable insertion sort driven by the comparator (with a NaN
  comparator result treated as 0, following the `SortCompare` clause of the
  ECMAScript standard).  Any stable sort yields this same output whenever the
  comparator is consistent, which is the regime of the theorems below.
* Network calls (`embedContent`, `chat.completions.create`) and other external
  collaborators (`atob`) enter as explicit function or result parameters.
-/

/-- A JavaScript number: an exact rational, NaN, or a signed infinity. -/
inductive JsNum where
  | num (q : ℚ)
  | posInf
  | negInf
  | nan
deriving DecidableEq, Repr

/-- JavaScript addition on `JsNum`. -/
def jsAdd : JsNum → JsNum → JsNum
  | JsNum.nan, _ => JsNum.nan
  | _, JsNum.nan => JsNum.nan
  | JsNum.num a, JsNum.num b => JsNum.num (a + b)
  | JsNum.posInf, JsNum.negInf => JsNum.nan
  | JsNum.negInf, JsNum.posInf => JsNum.nan
  | JsNum.posInf, _ => JsNum.posInf
  | _, JsNum.posInf => JsNum.posInf
  | JsNum.negInf, _ => JsNum.negInf
  | _, JsNum.negInf => JsNum.negInf

/-- JavaScript subtraction on `JsNum`. -/
def jsSub : JsNum → JsNum → JsNum
  | JsNum.nan, _ => JsNum.nan
  | _, JsNum.nan => JsNum.nan
  | JsNum.num a, JsNum.num b => JsNum.num (a - b)
  | JsNum.posInf, JsNum.posInf => JsNum.nan
  | JsNum.negInf, JsNum.negInf => JsNum.nan
  | JsNum.posInf, _ => JsNum.posInf
  | JsNum.negInf, _ => JsNum.negInf
  | JsNum.num _, JsNum.posInf => JsNum.negInf
  | JsNum.num _, JsNum.negInf => JsNum.posInf

/-- JavaScript multiplication on `JsNum` (`0 * Infinity` is NaN). -/
def jsMul : JsNum → JsNum → JsNum
  | JsNum.nan, _ => JsNum.nan
  | _, JsNum.nan => JsNum.nan
  | JsNum.num a, JsNum.num b => JsNum.num (a * b)
  | JsNum.posInf, JsNum.posInf => JsNum.posInf
  | JsNum.posInf, JsNum.negInf => JsNum.negInf
  | JsNum.negInf, JsNum.posInf => JsNum.negInf
  | JsNum.negInf, JsNum.negInf => JsNum.posInf
  | JsNum.posInf, JsNum.num b =>
      if b = 0 then JsNum.nan else if 0 < b then JsNum.posInf else JsNum.negInf
  | JsNum.num a, JsNum.posInf =>
      if a = 0 then JsNum.nan else if 0 < a then JsNum.posInf else JsNum.negInf
  | JsNum.negInf, JsNum.num b =>
      if b = 0 then JsNum.nan else if 0 < b then JsNum.negInf else JsNum.posInf
  | JsNum.num a, JsNum.negInf =>
      if a = 0 then JsNum.nan else if 0 < a then JsNum.negInf else JsNum.posInf

/-- JavaScript division on `JsNum` (`0 / 0` is NaN, `x / 0` is a signed
infinity for `x ≠ 0`; rationals have no negative zero). -/
def jsDiv : JsNum → JsNum → JsNum
  | JsNum.nan, _ => JsNum.nan
  | _, JsNum.nan => JsNum.nan
  | JsNum.num a, JsNum.num b =>
      if b = 0 then
        if a = 0 then JsNum.nan else if 0 < a then JsNum.posInf else JsNum.negInf
      else JsNum.num (a / b)
  | JsNum.num _, JsNum.posInf => JsNum.num 0
  | JsNum.num _, JsNum.negInf => JsNum.num 0
  | JsNum.posInf, JsNum.num b => if 0 ≤ b then JsNum.posInf else JsNum.negInf
  | JsNum.negInf, JsNum.num b => if 0 ≤ b then JsNum.negInf else JsNum.posInf
  | JsNum.posInf, JsNum.posInf => JsNum.nan
  | JsNum.posInf, JsNum.negInf => JsNum.nan
  | JsNum.negInf, JsNum.posInf => JsNum.nan
  | JsNum.negInf, JsNum.negInf => JsNum.nan

/-- `Math.sqrt`, with the square root of a nonnegative rational supplied by
the abstract parameter `sqrt` (negative input gives NaN). -/
def jsSqrt (sqrt : ℚ → ℚ) : JsNum → JsNum
  | JsNum.nan => JsNum.nan
  | JsNum.negInf => JsNum.nan
  | JsNum.posInf => JsNum.posInf
  | JsNum.num q => if q < 0 then JsNum.nan else JsNum.num (sqrt q)

/-- Whether a `JsNum` is an ordinary (finite, non-NaN) number. -/
def JsNum.isNum : JsNum → Bool
  | JsNum.num _ => true
  | _ => false

/-- Vendor tag (src/types.ts): two supported vendors, each with its own
embedding space. -/
inductive Vendor where
  | gemini
  | openai
deriving DecidableEq, Repr

/-- Knowledge mode of an uploaded document (src/types.ts). -/
inductive KnowledgeMode where
  | context
  | rag
deriving DecidableEq, Repr

/-- A text chunk (src/types.ts `Chunk`). -/
structure Chunk where
  id : String
  documentId : String
  text : String
deriving DecidableEq, Repr

/-- A persisted embedded chunk record: what `RagService.saveChunks` puts in
the `embeddings` object store (`{...chunk, vendor, embedding}`). -/
structure EmbeddedRecord where
  id : String
  documentId : String
  text : String
  vendor : Vendor
  embedding : List JsNum
deriving DecidableEq, Repr

/-- An uploaded document (src/types.ts `UploadedDocument`); the optional
`parsedText` is a `String` with `""` standing for a missing/falsy value,
matching the JavaScript truthiness checks in the source. -/
structure UploadedDocument where
  id : String
  name : String
  data : String
  parsedText : String
  isActive : Bool
  knowledgeMode : KnowledgeMode
  isIndexed : Bool
deriving DecidableEq, Repr

/-- Generation request configuration (src/types.ts `GenerationConfig`);
`currentDraft = ""` models an absent draft (JavaScript falsiness). -/
structure GenerationConfig where
  context : String
  personality : String
  braindump : String
  postType : String
  model : String
  currentDraft : String
deriving DecidableEq, Repr

/-- JavaScript `String.prototype.substring` on a character list: both indices
are clamped to `[0, length]` and swapped if out of order. -/
def jsSubstring (data : List Char) (a b : Int) : List Char :=
  let len : Int := data.length
  let a' : Nat := (min (max a 0) len).toNat
  let b' : Nat := (min (max b 0) len).toNat
  let lo := min a' b'
  let hi := max a' b'
  (data.drop lo).take (hi - lo)

/-- The `while (start < text.length)` loop of `RagService.chunkText`
(src/services/ragService.ts lines 60-76), with explicit fuel: `none` means
the loop did not finish within `fuel` iterations.  `start` is an `Int`
because `chunkSize - chunkOverlap` can be zero or negative, in which case the
window start never advances. -/
def chunkLoop (data : List Char) (documentId : String) (chunkSize chunkOverlap : Int) :
    Nat → Int → List Chunk → Option (List Chunk)
  | 0, start, acc => if start < (data.length : Int) then none else some acc
  | fuel + 1, start, acc =>
      if start < (data.length : Int) then
        let e := min (start + chunkSize) (data.length : Int)
        let c : Chunk :=
          { id := documentId ++ "-chunk-" ++ toString acc.length
            documentId := documentId
            text := String.mk (jsSubstring data start e) }
        chunkLoop data documentId chunkSize chunkOverlap fuel
          (start + (chunkSize - chunkOverlap)) (acc ++ [c])
      else some acc

/-- `RagService.chunkText(text, documentId, chunkSize = 1000, chunkOverlap = 200)`.
The source performs no parameter validation.  The fuel `text.length + 1`
suffices for every terminating run (the window start advances by at least one
character per iteration whenever `chunkOverlap < chunkSize`), so `none` here
means the source loop never terminates. -/
def chunkText (text : String) (documentId : String) (chunkSize chunkOverlap : Int) :
    Option (List Chunk) :=
  chunkLoop text.data documentId chunkSize chunkOverlap (text.length + 1) 0 []

/-- The accumulation loop of `RagService.cosineSimilarity`
(src/services/ragService.ts lines 118-128): a `for` loop over the indices of
`vecA` accumulating `dotProduct`, `normA` and `normB`.  When `vecB` is shorter
than `vecA`, the JavaScript access `vecB[i]` yields `undefined`, which behaves
as NaN under arithmetic; that case is the second branch. -/
def cosLoop : List JsNum → List JsNum → JsNum → JsNum → JsNum → JsNum × JsNum × JsNum
  | [], _, dotProduct, normA, normB => (dotProduct, normA, normB)
  | a :: as, [], dotProduct, normA, normB =>
      cosLoop as [] (jsAdd dotProduct (jsMul a JsNum.nan))
        (jsAdd normA (jsMul a a)) (jsAdd normB (jsMul JsNum.nan JsNum.nan))
  | a :: as, b :: bs, dotProduct, normA, normB =>
      cosLoop as bs (jsAdd dotProduct (jsMul a b))
        (jsAdd normA (jsMul a a)) (jsAdd normB (jsMul b b))

/-- `RagService.cosineSimilarity(vecA, vecB)`:
`dotProduct / (Math.sqrt(normA) * Math.sqrt(normB))`, with no guard for a
zero denominator. -/
def cosineSimilarity (sqrt : ℚ → ℚ) (vecA vecB : List JsNum) : JsNum :=
  let r := cosLoop vecA vecB (JsNum.num 0) (JsNum.num 0) (JsNum.num 0)
  jsDiv r.1 (jsMul (jsSqrt sqrt r.2.1) (jsSqrt sqrt r.2.2))

/-- The candidate pool of `RagService.searchSimilar`: the IndexedDB read
`store.index('vendor').getAll(vendor)` — every stored record whose vendor tag
equals the argument. -/
def candidatePool (store : List EmbeddedRecord) (vendor : Vendor) : List EmbeddedRecord :=
  store.filter (fun r => r.vendor == vendor)

/-- A scored candidate, as built by `searchSimilar`:
`allChunks.map(chunk => ({ chunk, score: cosineSimilarity(...) }))`. -/
structure Scored where
  chunk : EmbeddedRecord
  score : JsNum
deriving DecidableEq, Repr

/-- The scored candidate list of `searchSimilar` (lines 109-112). -/
def scoredOf (sqrt : ℚ → ℚ) (queryEmbedding : List JsNum) (pool : List EmbeddedRecord) :
    List Scored :=
  pool.map (fun r => { chunk := r, score := cosineSimilarity sqrt queryEmbedding r.embedding })

/-- `a` strictly precedes `b` under the sort comparator
`(a, b) => b.score - a.score` of `searchSimilar` line 114: the comparator
value is negative.  A NaN comparator value is treated as `+0` (neither
strictly precedes), following the `SortCompare` clause of the ECMAScript
standard. -/
def sortLt (a b : Scored) : Bool :=
  match jsSub b.score a.score with
  | JsNum.num q => decide (q < 0)
  | JsNum.negInf => true
  | JsNum.posInf => false
  | JsNum.nan => false

/-- Stable insertion of an input-earlier element `x` into the already-sorted
list of input-later elements: `x` is placed after exactly those elements that
strictly precede it, hence before every element that ties with it. -/
def insertScored (x : Scored) : List Scored → List Scored
  | [] => [x]
  | y :: ys => if sortLt y x then y :: insertScored x ys else x :: y :: ys

/-- The stable descending sort `scored.sort((a, b) => b.score - a.score)` of
`searchSimilar` line 114.  `Array.prototype.sort` is required to be stable;
for a consistent comparator every stable sort produces this same output. -/
def sortScored : List Scored → List Scored
  | [] => []
  | x :: xs => insertScored x (sortScored xs)

/-- `RagService.searchSimilar(queryEmbedding, vendor, limit = 5)`
(src/services/ragService.ts lines 97-116): read the vendor-scoped candidate
pool, score it against the query embedding, sort by descending score, and
return the first `limit` stored records. -/
def searchSimilar (sqrt : ℚ → ℚ) (queryEmbedding : List JsNum) (store : List EmbeddedRecord)
    (vendor : Vendor) (limit : Nat) : List EmbeddedRecord :=
  ((sortScored (scoredOf sqrt queryEmbedding (candidatePool store vendor))).take limit).map
    (fun s => s.chunk)

/-- `RagService.deleteDocumentData(documentId)`
(src/services/ragService.ts lines 130-146): collect the keys of all records
whose `documentId` index matches (`index.getAllKeys(documentId)`), then delete
each collected key from the store (`keyPath: 'id'`). -/
def deleteDocumentData (store : List EmbeddedRecord) (documentId : String) :
    List EmbeddedRecord :=
  let keys := (store.filter (fun r => r.documentId == documentId)).map (fun r => r.id)
  store.filter (fun r => !(keys.contains r.id))

/-- `getUserPrompt(config, documentContext = "")` of src/services/promptUtils.ts:
the template literal assembling the task block, the optional current-draft
block, the context block and the instructions block.  JavaScript truthiness
(`config.currentDraft ? ... : ...`, `config.context || ...`) becomes a
comparison with the empty string. -/
def getUserPrompt (config : GenerationConfig) (documentContext : String) : String :=
  "\n  TASK: "
    ++ (if config.currentDraft ≠ "" then "Refine and update the existing" else "Write a new")
    ++ " LinkedIn " ++ config.postType ++ ".\n\n  "
    ++ (if config.currentDraft ≠ "" then
          "CURRENT DRAFT TO REFINE:\n\"\"\"\n" ++ config.currentDraft ++ "\n\"\"\"\n"
        else "")
    ++ "\n\n  CONTEXT FOR RESPONSE:\n  "
    ++ (if config.context ≠ "" then config.context
        else "No specific post context provided. Produce a well-reasoned thought leadership post.")
    ++ "\n\n  KEY ARGUMENTS / REFINEMENT INSTRUCTIONS:\n  "
    ++ (if config.braindump ≠ "" then config.braindump
        else "Identify a clear, valuable angle using the Knowledge Corpus.")
    ++ "\n\n  " ++ documentContext ++ "\n  "

/-- A web grounding source attached to a Gemini grounding chunk
(`chunk.web`); `title = ""` models a missing/falsy title. -/
structure GroundingWeb where
  title : String
  uri : String
deriving DecidableEq, Repr

/-- One entry of `response.candidates[0].groundingMetadata.groundingChunks`;
`web = none` models a chunk without a `web` attribution. -/
structure GroundingChunk where
  web : Option GroundingWeb
deriving DecidableEq, Repr

/-- A normalized attribution source (`{ title, uri }`). -/
structure WebSource where
  title : String
  uri : String
deriving DecidableEq, Repr

/-- A normalized generation result (`GeneratedResponse` of
src/services/llmProvider.ts). -/
structure GeneratedResponse where
  text : String
  sources : List WebSource
deriving DecidableEq, Repr

/-- The attribution-source extraction of `GeminiProvider.generateContent`
(src/services/geminiProvider.ts lines 93-107): for each grounding chunk that
has a `web` part, push `{ title: chunk.web.title || "Web Source",
uri: chunk.web.uri }` onto the `sources` array, in order.  A missing
`groundingMetadata` is modelled by the empty chunk list. -/
def extractSources (groundingChunks : List GroundingChunk) : List WebSource :=
  groundingChunks.foldl
    (fun sources c =>
      match c.web with
      | some w =>
          sources ++ [{ title := if w.title ≠ "" then w.title else "Web Source", uri := w.uri }]
      | none => sources)
    []

/-- The retrieval step of `GeminiProvider.generateContent`
(src/services/geminiProvider.ts lines 42-43 and 66-68): if any active
document is in RAG mode, embed the query text (`config.braindump ||
config.context`) through the Gemini embedder and search the vector store
restricted to the Gemini vendor tag with the fixed top-K of 5.  The vendor
embedder is the explicit parameter `embed`. -/
def geminiRetrieve (sqrt : ℚ → ℚ) (embed : String → List JsNum) (config : GenerationConfig)
    (documents : List UploadedDocument) (store : List EmbeddedRecord) : List EmbeddedRecord :=
  let activeDocs := documents.filter (fun d => d.isActive)
  let ragDocs := activeDocs.filter (fun d => d.knowledgeMode == KnowledgeMode.rag)
  if ragDocs.isEmpty then []
  else
    searchSimilar sqrt
      (embed (if config.braindump ≠ "" then config.braindump else config.context))
      store Vendor.gemini 5

/-- The user-prompt assembly of `OpenAIProvider.generateContent`
(src/services/openaiProvider.ts lines 33-60): inline the parsed text of every
active CONTEXT document, then (if any active document is in RAG mode) append
the retrieved knowledge chunks for the OpenAI vendor tag, then append the
user prompt. -/
def openaiBuildUserPrompt (sqrt : ℚ → ℚ) (embed : String → List JsNum)
    (config : GenerationConfig) (documents : List UploadedDocument)
    (store : List EmbeddedRecord) : String :=
  let activeDocs := documents.filter (fun d => d.isActive)
  let ragDocs := activeDocs.filter (fun d => d.knowledgeMode == KnowledgeMode.rag)
  let contextDocs := activeDocs.filter (fun d => d.knowledgeMode == KnowledgeMode.context)
  let contextPart := contextDocs.foldl
    (fun acc doc => acc ++ "\n--- DOCUMENT: " ++ doc.name ++ " ---\n" ++ doc.parsedText ++ "\n")
    ""
  let ragPart :=
    if ragDocs.isEmpty then ""
    else
      let relevantChunks :=
        searchSimilar sqrt
          (embed (if config.braindump ≠ "" then config.braindump else config.context))
          store Vendor.openai 5
      if relevantChunks.isEmpty then ""
      else
        "\n\nRELEVANT KNOWLEDGE CHUNKS:\n"
          ++ relevantChunks.foldl
              (fun acc c => acc ++ "[From " ++ c.documentId ++ "]: " ++ c.text ++ "\n") ""
  contextPart ++ ragPart ++ getUserPrompt config ""

/-- `OpenAIProvider.generateContent` (src/services/openaiProvider.ts lines
26-73): assemble the prompt, send it through the chat-completions API (whose
reply text enters as the parameter `responseContent`, with `""` modelling a
missing/falsy `choices[0]?.message?.content`), and return the normalized
result.  The source returns `sources: []` unconditionally — the OpenAI path
never reports grounding sources. -/
def openaiGenerateContent (sqrt : ℚ → ℚ) (embed : String → List JsNum)
    (config : GenerationConfig) (documents : List UploadedDocument)
    (store : List EmbeddedRecord) (responseContent : String) : GeneratedResponse :=
  let _fullUserPrompt := openaiBuildUserPrompt sqrt embed config documents store
  { text := if responseContent ≠ "" then responseContent else "No response generated."
    sources := [] }

/-- `handleIndexDocument` of src/components/DocumentManager.tsx (lines
70-94): guard on the API key, chunk the document text (`doc.parsedText ||
atob(doc.data)`) with the default parameters, request embeddings, save the
chunk records, and only if every step succeeded mark the document indexed
and switch it to RAG mode.  Any thrown error is caught and leaves the
document list unchanged.  The embedding call and the store write are
external effects whose outcomes enter as `Except` parameters; the `none`
branch of `chunkText` is unreachable because the loop terminates for
`200 < 1000`, and is mapped to the caught-error behaviour. -/
def handleIndexDocument (apiKey : String) (atob : String → String)
    (doc : UploadedDocument) (documents : List UploadedDocument)
    (embedResult : Except String (List (List JsNum)))
    (saveResult : Except String Unit) : List UploadedDocument :=
  if apiKey = "" then documents
  else
    match chunkText (if doc.parsedText ≠ "" then doc.parsedText else atob doc.data)
        doc.id 1000 200 with
    | none => documents
    | some _chunks =>
      match embedResult with
      | Except.error _ => documents
      | Except.ok _ =>
        match saveResult with
        | Except.error _ => documents
        | Except.ok _ =>
            documents.map (fun d =>
              if d.id = doc.id then
                { d with isIndexed := true, knowledgeMode := KnowledgeMode.rag }
              else d)

/-- The fixed 2500-character document of the chunking scenario in the spec
(§8): character `i` is the letter `A + (i mod 26)`, so distinct window starts
produce distinct chunk texts. -/
def sampleText2500 : String :=
  String.mk ((List.range 2500).map (fun i => Char.ofNat (65 + i % 26)))

/-- Concrete store fixture for the deletion and retrieval witnesses: three
records of two documents across both vendors, with pairwise distinct ids. -/
def sampleStore : List EmbeddedRecord :=
  [{ id := "a0", documentId := "doc1", text := "t0", vendor := Vendor.gemini, embedding := [] },
   { id := "a1", documentId := "doc2", text := "t1", vendor := Vendor.openai, embedding := [] },
   { id := "a2", documentId := "doc1", text := "t2", vendor := Vendor.openai, embedding := [] }]

/-- The record of `sampleStore` that does not belong to document `doc1`. -/
def sampleRec : EmbeddedRecord :=
  { id := "a1", documentId := "doc2", text := "t1", vendor := Vendor.openai, embedding := [] }

/-- Store fixture for the stability witness: two records under the Gemini tag
with identical embeddings, hence tied cosine scores. -/
def sampleStore2 : List EmbeddedRecord :=
  [{ id := "r1", documentId := "d", text := "u1", vendor := Vendor.gemini,
     embedding := [JsNum.num 1] },
   { id := "r2", documentId := "d", text := "u2", vendor := Vendor.gemini,
     embedding := [JsNum.num 1] }]

/-- Config fixture with a non-empty current draft, for the prompt witness. -/
def sampleConfig : GenerationConfig :=
  { context := "ctx", personality := "pers", braindump := "brain",
    postType := "Post (Long Form)", model := "m", currentDraft := "OLD DRAFT" }

/- ===================== theorems ===================== -/

/-- The loop of `chunkText` returns the accumulated chunks as soon as the
window start reaches or exceeds the text length, whatever fuel remains. -/
theorem chunkLoop_exit (data : List Char) (d : String) (cs co : Int) (fuel : Nat)
    (start : Int) (acc : List Chunk) (h : ¬ start < (data.length : Int)) :
    chunkLoop data d cs co fuel start acc = some acc := by
  cases fuel <;> simp [chunkLoop, h]

/-- One iteration of the loop of `chunkText` while the window start is inside
the text: emit the window `[start, min (start + chunkSize) length)` and
advance the start by `chunkSize - chunkOverlap`. -/
theorem chunkLoop_step (data : List Char) (d : String) (cs co : Int) (fuel : Nat)
    (start : Int) (acc : List Chunk) (h : start < (data.length : Int)) :
    chunkLoop data d cs co (fuel + 1) start acc =
      chunkLoop data d cs co fuel (start + (cs - co))
        (acc ++ [{ id := d ++ "-chunk-" ++ toString acc.length
                   documentId := d
                   text := String.mk (jsSubstring data start (min (start + cs) (data.length : Int))) }]) := by
  simp [chunkLoop, h]

/-- When `chunkSize - chunkOverlap ≤ 0` the window start never increases, so
from any start position strictly inside the text the loop consumes every
fuel bound without returning: the source loop never terminates. -/
theorem chunkLoop_diverge (data : List Char) (d : String) (cs co : Int)
    (hadv : cs - co ≤ 0) :
    ∀ (fuel : Nat) (start : Int) (acc : List Chunk), start < (data.length : Int) →
      chunkLoop data d cs co fuel start acc = none := by
  intro fuel
  induction fuel with
  | zero => intro start acc h; simp [chunkLoop, h]
  | succ n ih =>
      intro start acc h
      rw [chunkLoop_step data d cs co n start acc h]
      exact ih _ _ (by omega)

/-- C1 counterexample.  With `overlap ≥ windowSize` the code does not fail
with an `InvalidConfiguration` error: on the non-empty text `"ab"` with
`windowSize = overlap = 1` the loop exhausts its fuel bound (the loop never
terminates — see `chunkText_no_validation`), and on the empty text with
`windowSize = 1 < overlap = 2` it terminates normally and returns an empty
chunk list.  Neither run produces any error. -/
theorem chunkText_c1_counterexample :
    chunkText "ab" "d" 1 1 = none ∧ chunkText "" "d" 1 2 = some [] := by decide

/-- C1 as amended: `chunkText` performs no validation of its parameters and
has no `InvalidConfiguration` failure.  For `overlap ≥ windowSize` it returns
an empty chunk list on empty text, and on non-empty text its windowing loop
never terminates (every fuel bound is exhausted), because the window start
never advances past its previous value. -/
theorem chunkText_no_validation (text documentId : String) (chunkSize chunkOverlap : Int)
    (h : chunkSize ≤ chunkOverlap) :
    (text.data = [] → chunkText text documentId chunkSize chunkOverlap = some []) ∧
      (text.data ≠ [] →
        ∀ (fuel : Nat) (acc : List Chunk),
          chunkLoop text.data documentId chunkSize chunkOverlap fuel 0 acc = none) := by
  constructor
  · intro hempty
    unfold chunkText
    exact chunkLoop_exit _ _ _ _ _ _ _ (by simp [hempty])
  · intro hne fuel acc
    have hpos : 0 < (text.data.length : Int) := by
      have := List.length_pos.mpr hne
      exact_mod_cast this
    exact chunkLoop_diverge text.data documentId chunkSize chunkOverlap (by omega) fuel 0 acc hpos

/-- Witness for `chunkText_no_validation` at text `"ab"`, windowSize 1,
overlap 1, fuel 5. -/
theorem chunkText_no_validation_witness :
    chunkLoop "ab".data "d" 1 1 5 0 [] = none :=
  (chunkText_no_validation "ab" "d" 1 1 (by decide)).2 (by decide) 5 []

/-- C4: chunking the fixed 2500-character text with `windowSize = 1000` and
`overlap = 200` yields exactly 4 chunks, whose texts are the windows starting
at 0, 800, 1600 and 2400 (the third window is truncated at the text end and
the final chunk has only 100 < 1000 characters); and once the window start
reaches or exceeds the text length (here 3200 ≥ 2500) the loop terminates at
once, returning its accumulated chunks for every remaining fuel. -/
theorem chunkText_scenario :
    (chunkText sampleText2500 "doc" 1000 200
      = some [⟨"doc-chunk-0", "doc", String.mk ((sampleText2500.data.drop 0).take 1000)⟩,
              ⟨"doc-chunk-1", "doc", String.mk ((sampleText2500.data.drop 800).take 1000)⟩,
              ⟨"doc-chunk-2", "doc", String.mk ((sampleText2500.data.drop 1600).take 900)⟩,
              ⟨"doc-chunk-3", "doc", String.mk ((sampleText2500.data.drop 2400).take 100)⟩])
    ∧ ∀ (fuel : Nat) (acc : List Chunk),
        chunkLoop sampleText2500.data "doc" 1000 200 fuel 3200 acc = some acc := by
  have hlen : (sampleText2500.data.length : Int) = 2500 := by simp [sampleText2500]
  have hL : sampleText2500.length = 2500 := by simp [sampleText2500, String.length]
  constructor
  · rw [chunkText, hL]
    rw [chunkLoop_step _ _ _ _ _ _ _ (by rw [hlen]; norm_num)]
    rw [show (2500 : Nat) = 2499 + 1 from rfl]
    rw [chunkLoop_step _ _ _ _ _ _ _ (by rw [hlen]; norm_num)]
    rw [show (2499 : Nat) = 2498 + 1 from rfl]
    rw [chunkLoop_step _ _ _ _ _ _ _ (by rw [hlen]; norm_num)]
    rw [show (2498 : Nat) = 2497 + 1 from rfl]
    rw [chunkLoop_step _ _ _ _ _ _ _ (by rw [hlen]; norm_num)]
    rw [chunkLoop_exit _ _ _ _ _ _ _ (by rw [hlen]; norm_num)]
    simp only [List.nil_append, List.append_assoc, List.singleton_append, List.cons_append,
      List.length_nil, List.length_cons, Option.some.injEq]
    norm_num [jsSubstring, hlen, hL]
    refine ⟨⟨by decide, ?_⟩, ⟨by decide, ?_⟩, ⟨by decide, ?_⟩, by decide, ?_⟩ <;> rfl
  · intro fuel acc
    exact chunkLoop_exit _ _ _ _ _ _ _ (by rw [hlen]; norm_num)

/-- Membership in the key list collected by `deleteDocumentData`:
`r.id` is among the collected keys iff some stored record shares its id and
belongs to the targeted document. -/
theorem mem_deleteKeys (store : List EmbeddedRecord) (d : String) (i : String) :
    ((store.filter (fun r => r.documentId == d)).map (fun r => r.id)).contains i = true
      ↔ ∃ r' ∈ store, r'.documentId = d ∧ r'.id = i := by
  simp [List.elem_iff, List.mem_filter, List.mem_map, beq_iff_eq]
  constructor
  · rintro ⟨r', ⟨hr', hd⟩, hi⟩
    exact ⟨r', hr', hd, hi⟩
  · rintro ⟨r', hr', hd, hi⟩
    exact ⟨r', ⟨hr', hd⟩, hi⟩

/-- C6: with unique record ids (the store's `keyPath: 'id'` invariant),
`deleteDocumentData d` keeps exactly the records that do not belong to
document `d`, regardless of vendor; it is idempotent; and on a store holding
no record of `d` it is the identity (a no-op, not an error). -/
theorem deleteDocumentData_spec (store : List EmbeddedRecord) (d : String)
    (h : (store.map (fun r => r.id)).Nodup) :
    (∀ r, r ∈ deleteDocumentData store d ↔ (r ∈ store ∧ r.documentId ≠ d))
      ∧ deleteDocumentData (deleteDocumentData store d) d = deleteDocumentData store d
      ∧ ((∀ r ∈ store, r.documentId ≠ d) → deleteDocumentData store d = store) := by
  have hdel : ∀ r, r ∈ deleteDocumentData store d ↔
      (r ∈ store ∧
        ¬ ((store.filter (fun r => r.documentId == d)).map (fun r => r.id)).contains r.id = true) := by
    intro r
    simp [deleteDocumentData, List.mem_filter]
  have hnotin : ∀ r ∈ deleteDocumentData store d, r.documentId ≠ d := by
    intro r hr hrd
    rcases (hdel r).mp hr with ⟨hrs, hnc⟩
    exact hnc ((mem_deleteKeys store d r.id).mpr ⟨r, hrs, hrd, rfl⟩)
  refine ⟨?_, ?_, ?_⟩
  · intro r
    rw [hdel r]
    constructor
    · rintro ⟨hrs, hnc⟩
      refine ⟨hrs, fun hrd => hnc ((mem_deleteKeys store d r.id).mpr ⟨r, hrs, hrd, rfl⟩)⟩
    · rintro ⟨hrs, hrd⟩
      refine ⟨hrs, fun hc => ?_⟩
      rcases (mem_deleteKeys store d r.id).mp hc with ⟨r', hr's, hr'd, hr'i⟩
      have : r' = r := List.inj_on_of_nodup_map h hr's hrs hr'i
      exact hrd (this ▸ hr'd)
  · have hkeys : (deleteDocumentData store d).filter (fun r => r.documentId == d) = [] := by
      rw [List.filter_eq_nil_iff]
      intro r hr
      simp [beq_iff_eq]
      exact hnotin r hr
    conv_lhs => rw [deleteDocumentData, hkeys]
    simp [List.contains]
  · intro hnone
    have hkeys : store.filter (fun r => r.documentId == d) = [] := by
      rw [List.filter_eq_nil_iff]
      intro r hr
      simp [beq_iff_eq]
      exact hnone r hr
    rw [deleteDocumentData, hkeys]
    simp [List.contains]

/-- Witness for `deleteDocumentData_spec` on the concrete `sampleStore`:
the `doc2` record survives deletion of `doc1`, and deleting `doc1` twice
equals deleting it once. -/
theorem deleteDocumentData_spec_witness :
    (sampleRec ∈ deleteDocumentData sampleStore "doc1"
        ↔ (sampleRec ∈ sampleStore ∧ sampleRec.documentId ≠ "doc1"))
      ∧ deleteDocumentData (deleteDocumentData sampleStore "doc1") "doc1"
          = deleteDocumentData sampleStore "doc1" :=
  ⟨(deleteDocumentData_spec sampleStore "doc1" (by decide)).1 sampleRec,
   (deleteDocumentData_spec sampleStore "doc1" (by decide)).2.1⟩

/-- Stable insertion produces a permutation of pushing the element in front. -/
theorem insertScored_perm (x : Scored) (l : List Scored) :
    (insertScored x l).Perm (x :: l) := by
  induction l with
  | nil => simp [insertScored]
  | cons y ys ih =>
      rw [insertScored]
      by_cases hyx : sortLt y x = true
      · simp only [hyx, if_true]
        exact ((ih.cons y).trans (List.Perm.swap x y ys)).symm.symm
      · simp [hyx]

/-- The ranking sort permutes its input: no candidate is dropped or
duplicated by the sort. -/
theorem sortScored_perm (l : List Scored) : (sortScored l).Perm l := by
  induction l with
  | nil => simp [sortScored]
  | cons x xs ih => exact (insertScored_perm x (sortScored xs)).trans (ih.cons x)

/-- C3: the candidate pool read by `searchSimilar` through the `vendor`
index is exactly the set of stored records tagged with the query's vendor;
consequently every record ever returned (hence every record compared) comes
from the store and carries that vendor tag — and the Gemini generation flow,
which embeds its query through the Gemini embedder, only ever retrieves
records stored under the Gemini tag. -/
theorem searchSimilar_vendor_scope (sqrt : ℚ → ℚ) (q : List JsNum)
    (store : List EmbeddedRecord) (v : Vendor) :
    (∀ r, r ∈ candidatePool store v ↔ (r ∈ store ∧ r.vendor = v))
      ∧ (∀ (limit : Nat) r, r ∈ searchSimilar sqrt q store v limit →
          r ∈ store ∧ r.vendor = v)
      ∧ (∀ (embed : String → List JsNum) (config : GenerationConfig)
            (documents : List UploadedDocument) r,
          r ∈ geminiRetrieve sqrt embed config documents store →
            r ∈ store ∧ r.vendor = Vendor.gemini) := by
  have hpool : ∀ r, r ∈ candidatePool store v ↔ (r ∈ store ∧ r.vendor = v) := by
    intro r
    simp [candidatePool, List.mem_filter, beq_iff_eq]
  have hout : ∀ (sqrt : ℚ → ℚ) (q : List JsNum) (v : Vendor) (limit : Nat) r,
      r ∈ searchSimilar sqrt q store v limit → r ∈ store ∧ r.vendor = v := by
    intro sqrt q v limit r hr
    rw [searchSimilar] at hr
    rcases List.mem_map.mp hr with ⟨s, hs, rfl⟩
    have hs' : s ∈ sortScored (scoredOf sqrt q (candidatePool store v)) :=
      List.take_subset limit _ hs
    have hs'' : s ∈ scoredOf sqrt q (candidatePool store v) :=
      (sortScored_perm _).mem_iff.mp hs'
    rcases List.mem_map.mp hs'' with ⟨rec, hrec, rfl⟩
    have := List.mem_filter.mp hrec
    exact ⟨this.1, by simpa [beq_iff_eq] using this.2⟩
  refine ⟨hpool, hout sqrt q v, ?_⟩
  intro embed config documents r hr
  simp only [geminiRetrieve] at hr
  by_cases hrag :
      ((documents.filter (fun d => d.isActive)).filter
        (fun d => d.knowledgeMode == KnowledgeMode.rag)).isEmpty = true
  · rw [if_pos hrag] at hr
    exact absurd hr (List.not_mem_nil r)
  · rw [if_neg hrag] at hr
    exact hout sqrt _ Vendor.gemini 5 r hr

/-- Witness for `searchSimilar_vendor_scope`: on the mixed-vendor
`sampleStore`, the record retrieved for the Gemini tag is a stored record
tagged Gemini. -/
theorem searchSimilar_vendor_scope_witness :
    ({ id := "a0", documentId := "doc1", text := "t0", vendor := Vendor.gemini,
       embedding := [] } : EmbeddedRecord) ∈ sampleStore
      ∧ ({ id := "a0", documentId := "doc1", text := "t0", vendor := Vendor.gemini,
           embedding := [] } : EmbeddedRecord).vendor = Vendor.gemini :=
  (searchSimilar_vendor_scope (fun x => x) [JsNum.num 1] sampleStore Vendor.gemini).2.1 5 _
    (by decide)

/-- A `JsNum` with `isNum` set is some ordinary number. -/
theorem isNum_iff (x : JsNum) : x.isNum = true ↔ ∃ q, x = JsNum.num q := by
  cases x <;> simp [JsNum.isNum]

/-- Inserting an element with an ordinary score into a list of candidates
with ordinary scores commutes with filtering a tied-score class: the inserted
element lands after every strictly-greater score, hence in front of nothing
that ties with it among the input-later elements. -/
theorem filter_insertScored (q : ℚ) (x : Scored) (l : List Scored)
    (hx : x.score.isNum = true) (hl : ∀ s ∈ l, s.score.isNum = true) :
    (insertScored x l).filter (fun s => decide (s.score = JsNum.num q))
      = if x.score = JsNum.num q
        then x :: l.filter (fun s => decide (s.score = JsNum.num q))
        else l.filter (fun s => decide (s.score = JsNum.num q)) := by
  induction l with
  | nil =>
      by_cases hq : x.score = JsNum.num q <;> simp [insertScored, hq]
  | cons y ys ih =>
      rcases (isNum_iff x.score).mp hx with ⟨p, hp⟩
      rcases (isNum_iff y.score).mp (hl y (List.mem_cons_self y ys)) with ⟨r, hr⟩
      have ihys := ih (fun s hs => hl s (List.mem_cons_of_mem y hs))
      rw [insertScored]
      by_cases hyx : sortLt y x = true
      · have hlt : p < r := by
          rw [sortLt, hp, hr, jsSub] at hyx
          simpa [sub_neg] using of_decide_eq_true hyx
        rw [if_pos hyx]
        by_cases hq : x.score = JsNum.num q
        · have hyq : ¬ y.score = JsNum.num q := by
            rw [hr]
            intro hcon
            have h1 : p = q := JsNum.num.inj (hp.symm.trans hq)
            have h2 : r = q := JsNum.num.inj hcon
            rw [h1, h2] at hlt
            exact lt_irrefl q hlt
          rw [List.filter_cons_of_neg (by simpa using hyq), ihys, if_pos hq,
            List.filter_cons_of_neg (by simpa using hyq), if_pos hq]
        · by_cases hyq : y.score = JsNum.num q
          · rw [List.filter_cons_of_pos (by simpa using hyq), ihys, if_neg hq,
              List.filter_cons_of_pos (by simpa using hyq), if_neg hq]
          · rw [List.filter_cons_of_neg (by simpa using hyq), ihys, if_neg hq,
              List.filter_cons_of_neg (by simpa using hyq), if_neg hq]
      · rw [if_neg hyx]
        by_cases hq : x.score = JsNum.num q
        · rw [List.filter_cons_of_pos (by simpa using hq), if_pos hq]
        · rw [List.filter_cons_of_neg (by simpa using hq), if_neg hq]

/-- Multiplying an exact zero on the left gives zero or NaN (NaN for an
infinite factor), never a nonzero number. -/
theorem jsMul_zero_left (b : JsNum) :
    jsMul (JsNum.num 0) b = JsNum.num 0 ∨ jsMul (JsNum.num 0) b = JsNum.nan := by
  cases b <;> simp [jsMul]

/-- Multiplying an exact zero on the right gives zero or NaN. -/
theorem jsMul_zero_right (a : JsNum) :
    jsMul a (JsNum.num 0) = JsNum.num 0 ∨ jsMul a (JsNum.num 0) = JsNum.nan := by
  cases a <;> simp [jsMul]

/-- NaN absorbs under multiplication. -/
theorem jsMul_nan_right (a : JsNum) : jsMul a JsNum.nan = JsNum.nan := by
  cases a <;> simp [jsMul]

/-- NaN absorbs under addition. -/
theorem jsAdd_nan_right (a : JsNum) : jsAdd a JsNum.nan = JsNum.nan := by
  cases a <;> simp [jsAdd]

/-- Accumulator invariant of `cosLoop` when every entry of `vecA` is an exact
zero: the dot product stays zero or becomes NaN (NaN once `vecB` is
exhausted), and `normA` stays exactly zero. -/
theorem cosLoop_zeroA :
    ∀ (vecA : List JsNum), (∀ a ∈ vecA, a = JsNum.num 0) →
      ∀ (vecB : List JsNum) (dot nb : JsNum),
        (dot = JsNum.num 0 ∨ dot = JsNum.nan) →
        ((cosLoop vecA vecB dot (JsNum.num 0) nb).1 = JsNum.num 0
            ∨ (cosLoop vecA vecB dot (JsNum.num 0) nb).1 = JsNum.nan)
          ∧ (cosLoop vecA vecB dot (JsNum.num 0) nb).2.1 = JsNum.num 0 := by
  intro vecA
  induction vecA with
  | nil =>
      intro _ vecB dot nb hdot
      exact ⟨hdot, rfl⟩
  | cons a as ih =>
      intro hA vecB dot nb hdot
      have ha : a = JsNum.num 0 := hA a (List.mem_cons_self a as)
      subst ha
      have hA' : ∀ x ∈ as, x = JsNum.num 0 := fun x hx => hA x (List.mem_cons_of_mem _ hx)
      have hna : jsAdd (JsNum.num 0) (jsMul (JsNum.num 0) (JsNum.num 0)) = JsNum.num 0 := by
        norm_num [jsAdd, jsMul]
      cases vecB with
      | nil =>
          rw [cosLoop, hna]
          refine ih hA' [] _ _ ?_
          right
          simp [jsMul, jsAdd_nan_right]
      | cons b bs =>
          rw [cosLoop, hna]
          refine ih hA' bs _ _ ?_
          rcases jsMul_zero_left b with h | h <;> rw [h] <;> rcases hdot with rfl | rfl <;>
            norm_num [jsAdd]

/-- Accumulator invariant of `cosLoop` when every entry of `vecB` is an exact
zero: the dot product stays zero or becomes NaN, and either `normB` stays
exactly zero or the dot product is already NaN (which happens exactly when
`vecB` runs out before `vecA`). -/
theorem cosLoop_zeroB :
    ∀ (vecA vecB : List JsNum), (∀ b ∈ vecB, b = JsNum.num 0) →
      ∀ (dot na nb : JsNum),
        (dot = JsNum.num 0 ∨ dot = JsNum.nan) →
        (nb = JsNum.num 0 ∨ dot = JsNum.nan) →
        ((cosLoop vecA vecB dot na nb).1 = JsNum.num 0
            ∨ (cosLoop vecA vecB dot na nb).1 = JsNum.nan)
          ∧ ((cosLoop vecA vecB dot na nb).2.2 = JsNum.num 0
            ∨ (cosLoop vecA vecB dot na nb).1 = JsNum.nan) := by
  intro vecA
  induction vecA with
  | nil =>
      intro vecB _ dot na nb hdot hnb
      rcases hnb with h | h
      · exact ⟨hdot, Or.inl h⟩
      · exact ⟨Or.inr h, Or.inr h⟩
  | cons a as ih =>
      intro vecB hB dot na nb hdot hnb
      cases vecB with
      | nil =>
          rw [cosLoop]
          have hd : jsAdd dot (jsMul a JsNum.nan) = JsNum.nan := by
            rw [jsMul_nan_right, jsAdd_nan_right]
          rw [hd]
          exact ih [] (by simp) _ _ _ (Or.inr rfl) (Or.inr rfl)
      | cons b bs =>
          have hb : b = JsNum.num 0 := hB b (List.mem_cons_self b bs)
          subst hb
          have hB' : ∀ x ∈ bs, x = JsNum.num 0 := fun x hx => hB x (List.mem_cons_of_mem _ hx)
          rw [cosLoop]
          refine ih bs hB' _ _ _ ?_ ?_
          · rcases jsMul_zero_right a with h | h <;> rw [h] <;> rcases hdot with rfl | rfl <;>
              norm_num [jsAdd]
          · rcases hnb with rfl | h
            · left
              norm_num [jsMul, jsAdd]
            · right
              rw [h, jsAdd]

/-- C2 counterexample.  At the concrete zero-magnitude pair
`vecA = vecB = [0]` (where the only square root taken is `Math.sqrt 0 = 0`),
`cosineSimilarity` evaluates `0 / (0 * 0)`, which is NaN — not 0 as the
claim states. -/
theorem cosineSimilarity_c2_counterexample :
    cosineSimilarity (fun _ => 0) [JsNum.num 0] [JsNum.num 0] = JsNum.nan
      ∧ JsNum.nan ≠ JsNum.num 0 := by
  constructor
  · norm_num [cosineSimilarity, cosLoop, jsAdd, jsMul, jsSqrt, jsDiv]
  · simp

/-- C2 as amended: for every pair of vectors of which at least one has zero
magnitude (every entry an exact zero, including the empty vector), the
cosine similarity computed by the ranker evaluates to NaN — the code divides
`0 / 0` (or propagates the NaN of an out-of-range access) with no
zero-magnitude guard.  The only fact required of `Math.sqrt` is
`sqrt 0 = 0`. -/
theorem cosineSimilarity_zero_vec (sqrt : ℚ → ℚ) (h0 : sqrt 0 = 0)
    (vecA vecB : List JsNum)
    (h : (∀ a ∈ vecA, a = JsNum.num 0) ∨ (∀ b ∈ vecB, b = JsNum.num 0)) :
    cosineSimilarity sqrt vecA vecB = JsNum.nan := by
  rw [cosineSimilarity]
  have hsq0 : jsSqrt sqrt (JsNum.num 0) = JsNum.num 0 := by
    norm_num [jsSqrt, h0]
  rcases h with hA | hB
  · obtain ⟨hdot, hna⟩ :=
      cosLoop_zeroA vecA hA vecB (JsNum.num 0) (JsNum.num 0) (Or.inl rfl)
    rw [hna, hsq0]
    rcases jsMul_zero_left
        (jsSqrt sqrt (cosLoop vecA vecB (JsNum.num 0) (JsNum.num 0) (JsNum.num 0)).2.2)
      with h | h <;> rw [h] <;> rcases hdot with h' | h' <;> rw [h'] <;> norm_num [jsDiv]
  · obtain ⟨hdot, hnb⟩ :=
      cosLoop_zeroB vecA vecB hB (JsNum.num 0) (JsNum.num 0) (JsNum.num 0)
        (Or.inl rfl) (Or.inl rfl)
    rcases hdot with h1 | h1
    · rcases hnb with h2 | h2
      · rw [h1, h2, hsq0]
        rcases jsMul_zero_right
            (jsSqrt sqrt (cosLoop vecA vecB (JsNum.num 0) (JsNum.num 0) (JsNum.num 0)).2.1)
          with h | h <;> rw [h] <;> norm_num [jsDiv]
      · rw [h1] at h2
        simp at h2
    · rw [h1]
      simp [jsDiv]

/-- Witness for `cosineSimilarity_zero_vec`: the zero-magnitude vector
`[0, 0]` against the nonzero `[1]` yields NaN (with the identity standing in
for the square root, which is exact on 0). -/
theorem cosineSimilarity_zero_vec_witness :
    cosineSimilarity (fun y => y) [JsNum.num 0, JsNum.num 0] [JsNum.num 1] = JsNum.nan :=
  cosineSimilarity_zero_vec (fun y => y) rfl [JsNum.num 0, JsNum.num 0] [JsNum.num 1]
    (Or.inl (by simp))

/-- C7: the ranking of `searchSimilar` is stable.  Whenever every candidate's
cosine score is an ordinary number (the regime in which the sort comparator
is consistent), the subsequence of candidates holding any given tied score is
the same — element for element, in the same order — before and after the
descending sort, so tied candidates keep their original candidate order. -/
theorem searchSimilar_ranking_stable (sqrt : ℚ → ℚ) (q : List JsNum)
    (store : List EmbeddedRecord) (v : Vendor)
    (h : ∀ s ∈ scoredOf sqrt q (candidatePool store v), s.score.isNum = true) (x : ℚ) :
    (sortScored (scoredOf sqrt q (candidatePool store v))).filter
        (fun s => decide (s.score = JsNum.num x))
      = (scoredOf sqrt q (candidatePool store v)).filter
          (fun s => decide (s.score = JsNum.num x)) := by
  generalize hls : scoredOf sqrt q (candidatePool store v) = l at h
  clear hls
  induction l with
  | nil => simp [sortScored]
  | cons y ys ih =>
      have hy := h y (List.mem_cons_self y ys)
      have hys : ∀ s ∈ ys, s.score.isNum = true := fun s hs => h s (List.mem_cons_of_mem y hs)
      have hsorted : ∀ s ∈ sortScored ys, s.score.isNum = true := fun s hs =>
        hys s ((sortScored_perm ys).mem_iff.mp hs)
      rw [sortScored, filter_insertScored x y (sortScored ys) hy hsorted, ih hys]
      by_cases hq : y.score = JsNum.num x
      · rw [if_pos hq, List.filter_cons_of_pos (by simpa using hq)]
      · rw [if_neg hq, List.filter_cons_of_neg (by simpa using hq)]

/-- Witness for `searchSimilar_ranking_stable` on `sampleStore2`: both Gemini
candidates score exactly 1 against the query `[1]` (with the exact square
root on 0 and 1), and the tied pair keeps its stored order through the sort. -/
theorem searchSimilar_ranking_stable_witness :
    (sortScored (scoredOf (fun y => y) [JsNum.num 1] (candidatePool sampleStore2 Vendor.gemini))).filter
        (fun s => decide (s.score = JsNum.num 1))
      = (scoredOf (fun y => y) [JsNum.num 1] (candidatePool sampleStore2 Vendor.gemini)).filter
          (fun s => decide (s.score = JsNum.num 1)) :=
  searchSimilar_ranking_stable (fun y => y) [JsNum.num 1] sampleStore2 Vendor.gemini
    (by
      intro s hs
      simp [scoredOf, candidatePool, sampleStore2] at hs
      rcases hs with rfl | rfl <;>
        norm_num [cosineSimilarity, cosLoop, jsAdd, jsMul, jsSqrt, jsDiv, JsNum.isNum]) 1

/-- C5: if the store write of a document's chunk records fails (the rejected
`saveChunks` transaction throws, landing in the `catch` of
`handleIndexDocument`), the document list is returned unchanged — in
particular no document is marked indexed, so a previously unindexed document
still has `isIndexed = false`.  The same holds when the embedding call fails
before the write. -/
theorem handleIndexDocument_failure (apiKey : String) (atob : String → String)
    (doc : UploadedDocument) (documents : List UploadedDocument)
    (embedResult : Except String (List (List JsNum)))
    (saveResult : Except String Unit) (eS eE : String) :
    handleIndexDocument apiKey atob doc documents embedResult (Except.error eS) = documents
      ∧ handleIndexDocument apiKey atob doc documents (Except.error eE) saveResult
          = documents := by
  constructor <;>
  · rw [handleIndexDocument.eq_def]
    by_cases hk : apiKey = ""
    · rw [if_pos hk]
    · rw [if_neg hk]
      cases chunkText (if doc.parsedText ≠ "" then doc.parsedText else atob doc.data)
          doc.id 1000 200 with
      | none => rfl
      | some cs => cases embedResult <;> rfl

/-- C8 counterexample.  Two identical web grounding chunks produce two equal
entries in the normalized sources list: the extraction performs no
deduplication, so the returned list is not duplicate-free. -/
theorem extractSources_c8_counterexample :
    extractSources
        [{ web := some { title := "T", uri := "u" } },
         { web := some { title := "T", uri := "u" } }]
      = [{ title := "T", uri := "u" }, { title := "T", uri := "u" }]
      ∧ ¬ (extractSources
            [{ web := some { title := "T", uri := "u" } },
             { web := some { title := "T", uri := "u" } }]).Nodup := by
  constructor
  · rfl
  · decide

/-- C8 as amended: the sources list extracted from the grounding metadata is
the in-order normalization of the web-bearing grounding chunks — one entry
per chunk with a `web` part, each titled `web.title || "Web Source"` — with
no deduplication, so duplicate grounding chunks yield duplicate entries. -/
theorem extractSources_eq_filterMap (groundingChunks : List GroundingChunk) :
    extractSources groundingChunks
      = groundingChunks.filterMap
          (fun c => c.web.map
            (fun w => { title := if w.title ≠ "" then w.title else "Web Source"
                        uri := w.uri })) := by
  have key : ∀ (cs : List GroundingChunk) (acc : List WebSource),
      cs.foldl
          (fun sources c =>
            match c.web with
            | some w =>
                sources ++ [{ title := if w.title ≠ "" then w.title else "Web Source",
                              uri := w.uri }]
            | none => sources)
          acc
        = acc ++ cs.filterMap
            (fun c => c.web.map
              (fun w => { title := if w.title ≠ "" then w.title else "Web Source"
                          uri := w.uri })) := by
    intro cs
    induction cs with
    | nil => intro acc; simp
    | cons c cs ih =>
        intro acc
        cases hw : c.web with
        | none =>
            rw [List.foldl_cons, List.filterMap_cons]
            simp only [hw]
            exact ih acc
        | some w =>
            rw [List.foldl_cons, List.filterMap_cons]
            simp only [hw, Option.map_some']
            rw [ih]
            simp [List.append_assoc]
  rw [extractSources, key]
  simp

/-- C9: with a non-empty `currentDraft`, the assembled user prompt explicitly
references refinement ("Refine and update the existing" appears in it), it
embeds the draft text verbatim, and it differs from the prompt assembled
from the same configuration with no draft (which instead asks to
"Write a new" post). -/
theorem getUserPrompt_refinement (config : GenerationConfig) (documentContext : String)
    (h : config.currentDraft ≠ "") :
    (∃ p s, (getUserPrompt config documentContext).data
        = p ++ "Refine and update the existing".data ++ s)
      ∧ (∃ p s, (getUserPrompt config documentContext).data
          = p ++ config.currentDraft.data ++ s)
      ∧ getUserPrompt config documentContext
          ≠ getUserPrompt { config with currentDraft := "" } documentContext := by
  have hno : ¬ ({ config with currentDraft := "" } : GenerationConfig).currentDraft ≠ "" := by
    simp
  refine ⟨?_, ?_, ?_⟩
  · refine ⟨"\n  TASK: ".data,
      " LinkedIn ".data ++ config.postType.data ++ ".\n\n  ".data
        ++ "CURRENT DRAFT TO REFINE:\n\"\"\"\n".data ++ config.currentDraft.data
        ++ "\n\"\"\"\n".data
        ++ "\n\n  CONTEXT FOR RESPONSE:\n  ".data
        ++ (if config.context ≠ "" then config.context
            else "No specific post context provided. Produce a well-reasoned thought leadership post.").data
        ++ "\n\n  KEY ARGUMENTS / REFINEMENT INSTRUCTIONS:\n  ".data
        ++ (if config.braindump ≠ "" then config.braindump
            else "Identify a clear, valuable angle using the Knowledge Corpus.").data
        ++ "\n\n  ".data ++ documentContext.data ++ "\n  ".data, ?_⟩
    simp only [getUserPrompt]
    rw [if_pos h, if_pos h]
    simp only [String.data_append, List.append_assoc]
  · refine ⟨"\n  TASK: ".data ++ "Refine and update the existing".data ++ " LinkedIn ".data
        ++ config.postType.data ++ ".\n\n  ".data
        ++ "CURRENT DRAFT TO REFINE:\n\"\"\"\n".data,
      "\n\"\"\"\n".data
        ++ "\n\n  CONTEXT FOR RESPONSE:\n  ".data
        ++ (if config.context ≠ "" then config.context
            else "No specific post context provided. Produce a well-reasoned thought leadership post.").data
        ++ "\n\n  KEY ARGUMENTS / REFINEMENT INSTRUCTIONS:\n  ".data
        ++ (if config.braindump ≠ "" then config.braindump
            else "Identify a clear, valuable angle using the Knowledge Corpus.").data
        ++ "\n\n  ".data ++ documentContext.data ++ "\n  ".data, ?_⟩
    simp only [getUserPrompt]
    rw [if_pos h, if_pos h]
    simp only [String.data_append, List.append_assoc]
  · intro heq
    have e30 : ("Refine and update the existing" : String).length = 30 := by decide
    have e11 : ("Write a new" : String).length = 11 := by decide
    have e29 : ("CURRENT DRAFT TO REFINE:\n\"\"\"\n" : String).length = 29 := by decide
    have e5 : ("\n\"\"\"\n" : String).length = 5 := by decide
    have e0 : ("" : String).length = 0 := by decide
    simp only [getUserPrompt] at heq
    rw [if_pos h, if_pos h, if_neg hno, if_neg hno] at heq
    have hlen := congrArg String.length heq
    simp only [String.length_append, e30, e11, e29, e5, e0] at hlen
    omega

/-- Witness for `getUserPrompt_refinement` at `sampleConfig`, whose current
draft is the non-empty string "OLD DRAFT". -/
theorem getUserPrompt_refinement_witness :
    (∃ p s, (getUserPrompt sampleConfig "").data
        = p ++ "Refine and update the existing".data ++ s)
      ∧ (∃ p s, (getUserPrompt sampleConfig "").data
          = p ++ sampleConfig.currentDraft.data ++ s)
      ∧ getUserPrompt sampleConfig ""
          ≠ getUserPrompt { sampleConfig with currentDraft := "" } "" :=
  getUserPrompt_refinement sampleConfig "" (by decide)

/-- C10: the OpenAI provider's `generateContent` always returns an empty
attribution-source list — whatever the credential-independent inputs
(configuration, documents, stored records, embedder, and API reply, URL-laden
context included), the OpenAI path reports no live web-grounding sources. -/
theorem openaiGenerateContent_sources_empty (sqrt : ℚ → ℚ)
    (embed : String → List JsNum) (config : GenerationConfig)
    (documents : List UploadedDocument) (store : List EmbeddedRecord)
    (responseContent : String) :
    (openaiGenerateContent sqrt embed config documents store responseContent).sources = [] :=
  rfl
